import Mathlib

/-!
Verification of the cw20-ics20 accounting core.

Shallow embedding of `src/contracts/cw20-ics20/src/amount.rs` and
`src/contracts/cw20-ics20/src/state.rs`.

Modelling conventions:
- Rust `String` is modelled as `List Char` (a sequence of characters);
  `str::starts_with` is `List.isPrefixOf` and the byte slice `get(5..)`
  after the 5-byte ASCII marker "cw20:" is `List.drop 5`.
- `Uint128` values are `Nat` together with the bound `UINT128_BOUND`
  (2^128); checked arithmetic is explicit, and an operation that panics
  in Rust (aborting the contract execution) is modelled by `Option`
  returning `none`.
- `cosmwasm_std::Decimal` is an unsigned fixed-point number: a 128-bit
  count of atomics, where one whole unit is `DF = 10^18` atomics.
- Contract storage slots are passed explicitly: the single `COMMISSION`
  item is an `Option Decimal` (empty until set), and the
  `CHANNEL_STATE` map is an association list from (channel, denom)
  keys to `ChannelState` records, with first-match lookup and
  replace-in-place insertion (`Map::update` = load, apply, save).
-/

namespace CwIcs20

/-- Rust strings modelled as sequences of characters. -/
abbrev Str := List Char

/-- One more than `u128::MAX`, i.e. 2^128: the exclusive upper bound of the
128-bit unsigned integers backing `Uint128` and `Decimal` atomics. -/
def UINT128_BOUND : Nat := 340282366920938463463374607431768211456

/-- `Decimal::DECIMAL_FRACTIONAL` = 10^18: a `Decimal` stores its value
scaled by this factor in an unsigned 128-bit integer of "atomics". -/
def DF : Nat := 1000000000000000000

/-- `cosmwasm_std::Decimal`: the fixed-point value `atomics / 10^18`. -/
structure Decimal where
  atomics : Nat
deriving DecidableEq

/-- `Decimal::checked_from_ratio`: `floor(num * 10^18 / den)` if it fits in
128 bits; `none` models both the `DivideByZero` and the `Overflow` error. -/
def Decimal.checked_from_ratio (num den : Nat) : Option Decimal :=
  if den = 0 then none
  else if num * DF / den < UINT128_BOUND then some (Decimal.mk (num * DF / den)) else none

/-- `Decimal::from_ratio` panics exactly where `checked_from_ratio` errors;
`none` models the panic (an abort, not a returned error). -/
def Decimal.from_ratio (num den : Nat) : Option Decimal :=
  Decimal.checked_from_ratio num den

/-- `Decimal::checked_mul`: `floor(a.atomics * b.atomics / 10^18)`, with
`none` modelling the `Overflow` error past 128 bits. -/
def Decimal.checked_mul (a b : Decimal) : Option Decimal :=
  if a.atomics * b.atomics / DF < UINT128_BOUND then
    some (Decimal.mk (a.atomics * b.atomics / DF))
  else none

/-- `Decimal::floor`: round down to a whole number of units. -/
def Decimal.floor (d : Decimal) : Decimal :=
  Decimal.mk (d.atomics / DF * DF)

/-- `Decimal::checked_ceil`: the value itself when it is whole, otherwise
`floor + 1` with the 128-bit overflow check of `checked_add`. -/
def Decimal.checked_ceil (d : Decimal) : Option Decimal :=
  if d.floor = d then some d.floor
  else if d.floor.atomics + DF < UINT128_BOUND then
    some (Decimal.mk (d.floor.atomics + DF))
  else none

/-- `Decimal::ceil` panics exactly where `checked_ceil` errors; `none`
models the panic. -/
def Decimal.ceil (d : Decimal) : Option Decimal :=
  d.checked_ceil

/-- `Uint128 * Decimal` (`Decimal * Uint128` delegates to it):
`multiply_ratio(u, atomics, 10^18)` = `floor(u * atomics / 10^18)`;
`none` models the panic when the result exceeds 128 bits. -/
def mul_uint128_decimal (u : Nat) (d : Decimal) : Option Nat :=
  if u * d.atomics / DF < UINT128_BOUND then some (u * d.atomics / DF) else none

/-- `Uint128::checked_sub`: `none` models the underflow error. -/
def checked_sub (a b : Nat) : Option Nat :=
  if b ≤ a then some (a - b) else none

/-- The `cosmwasm_std::StdError` cases this core produces: `Item::load` on
an empty slot fails with `NotFound`, and `StdError::generic_err` carries a
message. -/
inductive StdError
  | notFound
  | genericErr (msg : String)
deriving DecidableEq

/-- The `ContractError` variants used by the two embedded modules;
`Std` wraps a `StdError` (the `From<StdError>` conversion). -/
inductive ContractError
  | NoFunds
  | InsufficientFunds
  | InvalidCommission
  | Std (e : StdError)
deriving DecidableEq

/-- `cosmwasm_std::Coin`: a native denomination and a `Uint128` amount. -/
structure Coin where
  denom : Str
  amount : Nat
deriving DecidableEq

/-- `cw20::Cw20Coin`: a cw20 contract address and a `Uint128` amount. -/
structure Cw20Coin where
  address : Str
  amount : Nat
deriving DecidableEq

/-- The `Amount` enum of `amount.rs`: native coin or cw20 token. -/
inductive Amount
  | Native (c : Coin)
  | Cw20 (c : Cw20Coin)
deriving DecidableEq

/-- The literal marker "cw20:" that `Amount::from_parts` tests for and
`Amount::denom` prepends (5 ASCII characters). -/
def cw20Tag : Str :=
  String.data "cw20:"

/-- `Amount::from_parts`: strings starting with "cw20:" decode to `Cw20`
with the rest as address (`denom.get(5..)`); anything else is `Native`. -/
def Amount.from_parts (denom : Str) (amount : Nat) : Amount :=
  if List.isPrefixOf cw20Tag denom then
    Amount.Cw20 (Cw20Coin.mk (List.drop 5 denom) amount)
  else
    Amount.Native (Coin.mk denom amount)

/-- `Amount::denom`: the raw denom for `Native`, "cw20:" ++ address for
`Cw20` (the `format!` call). -/
def Amount.denom : Amount → Str
  | Amount.Native c => c.denom
  | Amount.Cw20 c => cw20Tag ++ c.address

/-- `Amount::amount`: the numeric magnitude of either variant. -/
def Amount.amount : Amount → Nat
  | Amount.Native c => c.amount
  | Amount.Cw20 c => c.amount

/-- `Amount::is_empty`: whether the quantity is zero. -/
def Amount.is_empty : Amount → Bool
  | Amount.Native c => c.amount == 0
  | Amount.Cw20 c => c.amount == 0

/-- Rebuild an amount of the same variant (same denom or address) with a
new quantity; this is the match block repeated at lines 105-124 and
126-145 of `amount.rs`. -/
def Amount.with_amount : Amount → Nat → Amount
  | Amount.Native c, n => Amount.Native (Coin.mk c.denom n)
  | Amount.Cw20 c, n => Amount.Cw20 (Cw20Coin.mk c.address n)

/-- `get_commission`: `COMMISSION.load(storage)`, which fails with
`StdError::NotFound` when the item was never saved. -/
def get_commission (store : Option Decimal) : Except StdError Decimal :=
  match store with
  | none => Except.error StdError.notFound
  | some c => Except.ok c

/-- `set_commission`: rejects a commission below `Decimal::zero()` or above
`Decimal::one()` (atomics comparisons: `atomics < 0` and `atomics > 10^18`),
otherwise saves the value unconditionally over whatever was stored. -/
def set_commission (store : Option Decimal) (commission : Decimal) :
    Except ContractError (Option Decimal) :=
  if commission.atomics < 0 ∨ DF < commission.atomics then
    Except.error ContractError.InvalidCommission
  else
    Except.ok (some commission)

/-- The outcome of `calculate_lock_in`: a returned pair, a returned typed
error, or a Rust panic (which aborts the contract execution). -/
inductive LockInResult
  | ok (lock_in_amount transfer_amount : Amount)
  | err (e : ContractError)
  | panicked
deriving DecidableEq

/-- `calculate_lock_in` of `amount.rs` lines 90-148, with the commission
storage slot passed explicitly: reject empty amounts with `NoFunds`, load
the commission, convert the quantity with `Decimal::from_ratio(q, 1)`,
multiply by the commission (`checked_mul`, error mapped to
"error multiplying1"), round up with `Decimal::ceil`, convert back via
`* Uint128::one()`, and compute the forwarded part with `checked_sub`
(error mapped to "error subtracting"). Both results keep the variant and
denom/address of the input. -/
def calculate_lock_in (store : Option Decimal) (amount : Amount) : LockInResult :=
  if amount.is_empty then LockInResult.err ContractError.NoFunds
  else
    match get_commission store with
    | Except.error e => LockInResult.err (ContractError.Std e)
    | Except.ok comm =>
      match Decimal.from_ratio amount.amount 1 with
      | none => LockInResult.panicked
      | some amnt_decimal =>
        match Decimal.checked_mul comm amnt_decimal with
        | none => LockInResult.err (ContractError.Std (StdError.genericErr "error multiplying1"))
        | some lock_in =>
          match Decimal.ceil lock_in with
          | none => LockInResult.panicked
          | some lock_in_ceil =>
            match mul_uint128_decimal 1 lock_in_ceil with
            | none => LockInResult.panicked
            | some lock_in_uint =>
              match checked_sub amount.amount lock_in_uint with
              | none => LockInResult.err (ContractError.Std (StdError.genericErr "error subtracting"))
              | some transfer_amnt_uint =>
                LockInResult.ok (amount.with_amount lock_in_uint)
                  (amount.with_amount transfer_amnt_uint)

/-- `ChannelState` of `state.rs`: outstanding and total_sent counters,
both `Uint128`, both defaulting to zero. -/
structure ChannelState where
  outstanding : Nat
  total_sent : Nat
deriving DecidableEq

/-- Key of the `CHANNEL_STATE` map: (channel id, denomination). -/
abbrev LedgerKey := Str × Str

/-- The `CHANNEL_STATE` map as an association list. -/
abbrev Ledger := List (LedgerKey × ChannelState)

/-- `Map::may_load` at a key: the first matching entry, if any. -/
def getEntry : Ledger → LedgerKey → Option ChannelState
  | [], _ => none
  | (k, v) :: rest, key => if k = key then some v else getEntry rest key

/-- `Map::save` at a key: replace the first matching entry in place, or
append a fresh entry when the key is absent. -/
def setEntry : Ledger → LedgerKey → ChannelState → Ledger
  | [], key, v => [(key, v)]
  | (k, w) :: rest, key, v =>
    if k = key then (k, v) :: rest else (k, w) :: setEntry rest key v

/-- `increase_channel_balance`: `Map::update` with a closure that takes the
entry (defaulting to zero) and does `outstanding += amount` and
`total_sent += amount`; the `Uint128` additions panic on 128-bit overflow
(`none` models the panic), and the closure itself never errors. -/
def increase_channel_balance (l : Ledger) (channel denom : Str) (amount : Nat) :
    Option Ledger :=
  if ((getEntry l (channel, denom)).getD (ChannelState.mk 0 0)).outstanding + amount
        < UINT128_BOUND ∧
      ((getEntry l (channel, denom)).getD (ChannelState.mk 0 0)).total_sent + amount
        < UINT128_BOUND then
    some (setEntry l (channel, denom)
      (ChannelState.mk
        (((getEntry l (channel, denom)).getD (ChannelState.mk 0 0)).outstanding + amount)
        (((getEntry l (channel, denom)).getD (ChannelState.mk 0 0)).total_sent + amount)))
  else none

/-- `reduce_channel_balance`: `Map::update` with a closure that fails with
`InsufficientFunds` when the entry is absent, subtracts from `outstanding`
with `checked_sub` (underflow mapped to `InsufficientFunds`), and leaves
`total_sent` alone. On a closure error nothing is saved, so the second
component returns the storage as the call leaves it: unchanged on error,
updated on success. -/
def reduce_channel_balance (l : Ledger) (channel denom : Str) (amount : Nat) :
    Except ContractError Unit × Ledger :=
  match getEntry l (channel, denom) with
  | none => (Except.error ContractError.InsufficientFunds, l)
  | some cur =>
    match checked_sub cur.outstanding amount with
    | none => (Except.error ContractError.InsufficientFunds, l)
    | some newOutstanding =>
      (Except.ok (), setEntry l (channel, denom)
        (ChannelState.mk newOutstanding cur.total_sent))

/-- `undo_reduce_channel_balance`: `Map::update` with a closure that takes
the entry (defaulting to zero) and does `outstanding += amount` only; the
`Uint128` addition panics on 128-bit overflow (`none` models the panic). -/
def undo_reduce_channel_balance (l : Ledger) (channel denom : Str) (amount : Nat) :
    Option Ledger :=
  if ((getEntry l (channel, denom)).getD (ChannelState.mk 0 0)).outstanding + amount
      < UINT128_BOUND then
    some (setEntry l (channel, denom)
      (ChannelState.mk
        (((getEntry l (channel, denom)).getD (ChannelState.mk 0 0)).outstanding + amount)
        (((getEntry l (channel, denom)).getD (ChannelState.mk 0 0)).total_sent)))
  else none

/-- The `total_sent` counter recorded for a key, reading an absent entry as
the default zero. -/
def total_sent_of (l : Ledger) (k : LedgerKey) : Nat :=
  ((getEntry l k).getD (ChannelState.mk 0 0)).total_sent

/-! Helper lemmas about the association-list view of `CHANNEL_STATE`. -/

theorem getEntry_setEntry (l : Ledger) (k key : LedgerKey) (v : ChannelState) :
    getEntry (setEntry l key v) k = if k = key then some v else getEntry l k := by
  induction l with
  | nil =>
    by_cases h : k = key
    · simp [setEntry, getEntry, h]
    · simp [setEntry, getEntry, h, Ne.symm h]
  | cons e rest ih =>
    obtain ⟨a, w⟩ := e
    by_cases hak : a = key
    · subst hak
      by_cases hk : k = a
      · subst hk
        simp [setEntry, getEntry]
      · simp [setEntry, getEntry, hk, Ne.symm hk]
    · by_cases hk : k = a
      · subst hk
        have hne : ¬ k = key := hak
        simp [setEntry, getEntry, hak, hne]
      · have hka : ¬ a = k := Ne.symm hk
        simp [setEntry, getEntry, hak, hka, ih]

theorem getEntry_mem {l : Ledger} {k : LedgerKey} {v : ChannelState}
    (h : getEntry l k = some v) : (k, v) ∈ l := by
  induction l with
  | nil => simp [getEntry] at h
  | cons e rest ih =>
    obtain ⟨a, w⟩ := e
    by_cases hak : a = k
    · subst hak
      simp [getEntry] at h
      subst h
      exact List.mem_cons_self _ _
    · simp [getEntry, hak] at h
      exact List.mem_cons_of_mem _ (ih h)

theorem setEntry_restore {l : Ledger} {k : LedgerKey} {v₀ : ChannelState}
    (h : getEntry l k = some v₀) (v : ChannelState) :
    setEntry (setEntry l k v) k v₀ = l := by
  induction l with
  | nil => simp [getEntry] at h
  | cons e rest ih =>
    obtain ⟨a, w⟩ := e
    by_cases hak : a = k
    · simp [getEntry, hak] at h
      subst h
      simp [setEntry, hak]
    · simp [getEntry, hak] at h
      simp [setEntry, hak, ih h]

/-- `reduce_channel_balance` never touches the `total_sent` counter of any
entry, whether it succeeds or fails. -/
theorem reduce_preserves_total_sent (l : Ledger) (channel denom : Str) (q : Nat)
    (k : LedgerKey) :
    total_sent_of ((reduce_channel_balance l channel denom q).2) k = total_sent_of l k := by
  unfold reduce_channel_balance
  cases hget : getEntry l (channel, denom) with
  | none => rfl
  | some cur =>
    unfold checked_sub
    by_cases hle : q ≤ cur.outstanding
    · simp only [hle, if_pos]
      by_cases hk : k = (channel, denom)
      · subst hk
        simp [total_sent_of, getEntry_setEntry, hget]
      · simp [total_sent_of, getEntry_setEntry, hk]
    · simp [hle]

/-! C4: reduce on an absent or underfunded entry fails with
`InsufficientFunds` and performs no mutation. -/

/-- C4: for every ledger, channel, denomination and quantity, when no entry
exists for the key or the entry's outstanding is below the quantity,
`reduce_channel_balance` returns the `InsufficientFunds` error and leaves
the whole ledger exactly as it was. -/
theorem C4_reduce_insufficient_no_mutation (l : Ledger) (channel denom : Str) (q : Nat)
    (h : getEntry l (channel, denom) = none ∨
      ∃ st, getEntry l (channel, denom) = some st ∧ st.outstanding < q) :
    reduce_channel_balance l channel denom q =
      (Except.error ContractError.InsufficientFunds, l) := by
  unfold reduce_channel_balance
  rcases h with h | ⟨st, hst, hlt⟩
  · rw [h]
  · rw [hst]
    unfold checked_sub
    have hnot : ¬ q ≤ st.outstanding := Nat.not_le.mpr hlt
    simp [hnot]

/-- C4 witness: on the empty ledger, reducing channel "A" / denom "uusd" by
5 fails with `InsufficientFunds` and returns the ledger unchanged. -/
theorem C4_witness :
    reduce_channel_balance [] (String.data "A") (String.data "uusd") 5 =
      (Except.error ContractError.InsufficientFunds, []) :=
  C4_reduce_insufficient_no_mutation [] (String.data "A") (String.data "uusd") 5
    (Or.inl rfl)

/-! C10: undo_reduce on an absent entry succeeds and creates the entry. -/

/-- C10: `undo_reduce_channel_balance` is not restricted to reversing a
prior reduce: on a key with no ledger entry it succeeds and creates a fresh
entry with outstanding = q and total_sent = 0. -/
theorem C10_undo_reduce_creates_entry (l : Ledger) (channel denom : Str) (q : Nat)
    (habs : getEntry l (channel, denom) = none) (hq : q < UINT128_BOUND) :
    undo_reduce_channel_balance l channel denom q =
      some (setEntry l (channel, denom) (ChannelState.mk q 0)) ∧
    getEntry (setEntry l (channel, denom) (ChannelState.mk q 0)) (channel, denom) =
      some (ChannelState.mk q 0) := by
  constructor
  · unfold undo_reduce_channel_balance
    rw [habs]
    simp [hq]
  · simp [getEntry_setEntry]

/-- C10 witness: on the empty ledger, undo_reduce for channel "A" / denom
"uusd" with quantity 7 succeeds and creates the entry (7, 0). -/
theorem C10_witness :
    undo_reduce_channel_balance [] (String.data "A") (String.data "uusd") 7 =
      some (setEntry [] (String.data "A", String.data "uusd") (ChannelState.mk 7 0)) ∧
    getEntry (setEntry [] (String.data "A", String.data "uusd") (ChannelState.mk 7 0))
      (String.data "A", String.data "uusd") = some (ChannelState.mk 7 0) :=
  C10_undo_reduce_creates_entry [] (String.data "A") (String.data "uusd") 7 rfl
    (by decide)

/-! C6: increase adds to both counters; on 128-bit overflow it panics
(aborts) instead of returning a typed error. -/

/-- C6 counterexample: on an entry whose outstanding already holds
`u128::MAX`, increasing by 1 does not produce a typed failure result: the
`Uint128` addition panics, aborting the execution (modelled by `none`),
refuting the claim that overflow is reported as a returned error value. -/
theorem C6_counterexample :
    increase_channel_balance
      [((String.data "A", String.data "uusd"),
        ChannelState.mk 340282366920938463463374607431768211455 0)]
      (String.data "A") (String.data "uusd") 1 = none := by
  decide

/-- C6 (amended): `increase_channel_balance` adds the quantity to both
`outstanding` and `total_sent`, creating the entry with both counters at
zero when absent, and cannot fail except on 128-bit overflow, in which
case it panics (aborts the contract execution) rather than returning a
typed failure result. -/
theorem C6_increase_adds_or_panics (l : Ledger) (channel denom : Str) (q : Nat) :
    (((getEntry l (channel, denom)).getD (ChannelState.mk 0 0)).outstanding + q
          < UINT128_BOUND ∧
        ((getEntry l (channel, denom)).getD (ChannelState.mk 0 0)).total_sent + q
          < UINT128_BOUND →
      increase_channel_balance l channel denom q =
        some (setEntry l (channel, denom)
          (ChannelState.mk
            (((getEntry l (channel, denom)).getD (ChannelState.mk 0 0)).outstanding + q)
            (((getEntry l (channel, denom)).getD (ChannelState.mk 0 0)).total_sent + q)))) ∧
    (¬ (((getEntry l (channel, denom)).getD (ChannelState.mk 0 0)).outstanding + q
          < UINT128_BOUND ∧
        ((getEntry l (channel, denom)).getD (ChannelState.mk 0 0)).total_sent + q
          < UINT128_BOUND) →
      increase_channel_balance l channel denom q = none) := by
  constructor
  · intro h
    simp only [increase_channel_balance, if_pos h]
  · intro h
    simp only [increase_channel_balance, if_neg h]

/-- C6 witness: increasing channel "A" / denom "uusd" by 5 on the empty
ledger creates the entry with outstanding = 5 and total_sent = 5. -/
theorem C6_witness :
    increase_channel_balance [] (String.data "A") (String.data "uusd") 5 =
      some [((String.data "A", String.data "uusd"), ChannelState.mk 5 5)] :=
  (C6_increase_adds_or_panics [] (String.data "A") (String.data "uusd") 5).1 (by decide)

/-! C7: total_sent is monotone: only increase changes it, by adding the
given quantity; reduce and undo_reduce leave it untouched everywhere. -/

/-- C7: across the three ledger operations, `total_sent` of every entry is
left unchanged by `reduce_channel_balance` (success or failure) and by
`undo_reduce_channel_balance`, and `increase_channel_balance` is the only
operation that changes it: it adds the given quantity at its own key and
leaves every other key unchanged. -/
theorem C7_total_sent_monotone (l : Ledger) (channel denom : Str) (q : Nat) :
    (∀ k, total_sent_of ((reduce_channel_balance l channel denom q).2) k =
      total_sent_of l k) ∧
    (∀ l', undo_reduce_channel_balance l channel denom q = some l' →
      ∀ k, total_sent_of l' k = total_sent_of l k) ∧
    (∀ l', increase_channel_balance l channel denom q = some l' →
      total_sent_of l' (channel, denom) = total_sent_of l (channel, denom) + q ∧
      ∀ k, k ≠ (channel, denom) → total_sent_of l' k = total_sent_of l k) := by
  refine ⟨fun k => reduce_preserves_total_sent l channel denom q k, ?_, ?_⟩
  · intro l' hl' k
    unfold undo_reduce_channel_balance at hl'
    by_cases hc : ((getEntry l (channel, denom)).getD (ChannelState.mk 0 0)).outstanding + q
        < UINT128_BOUND
    · rw [if_pos hc, Option.some.injEq] at hl'
      subst hl'
      by_cases hk : k = (channel, denom)
      · subst hk
        simp [total_sent_of, getEntry_setEntry]
      · simp [total_sent_of, getEntry_setEntry, hk]
    · rw [if_neg hc] at hl'
      exact absurd hl' (by simp)
  · intro l' hl'
    unfold increase_channel_balance at hl'
    by_cases hc : ((getEntry l (channel, denom)).getD (ChannelState.mk 0 0)).outstanding + q
          < UINT128_BOUND ∧
        ((getEntry l (channel, denom)).getD (ChannelState.mk 0 0)).total_sent + q
          < UINT128_BOUND
    · rw [if_pos hc, Option.some.injEq] at hl'
      subst hl'
      constructor
      · simp [total_sent_of, getEntry_setEntry]
      · intro k hk
        simp [total_sent_of, getEntry_setEntry, hk]
    · rw [if_neg hc] at hl'
      exact absurd hl' (by simp)

/-- C7 witness: increasing channel "A" / denom "uusd" by 5 on the empty
ledger raises total_sent at that key from its default 0 to 5. -/
theorem C7_witness :
    total_sent_of [((String.data "A", String.data "uusd"), ChannelState.mk 5 5)]
        (String.data "A", String.data "uusd") =
      total_sent_of [] (String.data "A", String.data "uusd") + 5 :=
  ((C7_total_sent_monotone [] (String.data "A") (String.data "uusd") 5).2.2
    [((String.data "A", String.data "uusd"), ChannelState.mk 5 5)] (by decide)).1

/-! C3: a successful reduce followed by undo_reduce with the same arguments
restores the ledger exactly. -/

/-- C3: for every ledger whose outstanding counters are valid 128-bit
values, a successful `reduce_channel_balance` followed by
`undo_reduce_channel_balance` with the same channel, denomination and
quantity returns the ledger to exactly the original state; moreover the
reduce step changes no `total_sent` counter and no entry at any other
key (and the undo step restores everything, so neither operation moves
`total_sent`). -/
theorem C3_reduce_undo_roundtrip (l l' : Ledger) (channel denom : Str) (q : Nat)
    (hb : ∀ e ∈ l, (e.2).outstanding < UINT128_BOUND)
    (hred : reduce_channel_balance l channel denom q = (Except.ok (), l')) :
    undo_reduce_channel_balance l' channel denom q = some l ∧
    (∀ k, total_sent_of l' k = total_sent_of l k) ∧
    (∀ k, k ≠ (channel, denom) → getEntry l' k = getEntry l k) := by
  unfold reduce_channel_balance at hred
  cases hget : getEntry l (channel, denom) with
  | none =>
    rw [hget] at hred
    simp at hred
  | some cur =>
    obtain ⟨o, t⟩ := cur
    rw [hget] at hred
    unfold checked_sub at hred
    dsimp only at hred
    by_cases hle : q ≤ o
    · rw [if_pos hle] at hred
      rw [Prod.mk.injEq] at hred
      have hl' : setEntry l (channel, denom) (ChannelState.mk (o - q) t) = l' := hred.2
      subst hl'
      have hbound : o < UINT128_BOUND := hb _ (getEntry_mem hget)
      have hsub : o - q + q = o := Nat.sub_add_cancel hle
      refine ⟨?_, ?_, ?_⟩
      · unfold undo_reduce_channel_balance
        simp [getEntry_setEntry, hsub, hbound, setEntry_restore hget]
      · intro k
        by_cases hk : k = (channel, denom)
        · subst hk
          simp [total_sent_of, getEntry_setEntry, hget]
        · simp [total_sent_of, getEntry_setEntry, hk]
      · intro k hk
        rw [getEntry_setEntry, if_neg hk]
    · rw [if_neg hle] at hred
      simp at hred

/-- C3 witness: on a ledger with outstanding = 100 and total_sent = 100 for
channel "A" / denom "uusd", reducing by 100 gives outstanding = 0 with
total_sent still 100, and undoing the reduce restores the original entry
exactly. -/
theorem C3_witness :
    undo_reduce_channel_balance
        [((String.data "A", String.data "uusd"), ChannelState.mk 0 100)]
        (String.data "A") (String.data "uusd") 100 =
      some [((String.data "A", String.data "uusd"), ChannelState.mk 100 100)] :=
  (C3_reduce_undo_roundtrip
    [((String.data "A", String.data "uusd"), ChannelState.mk 100 100)]
    [((String.data "A", String.data "uusd"), ChannelState.mk 0 100)]
    (String.data "A") (String.data "uusd") 100 (by decide) rfl).1

/-! C8: commission validation accepts exactly the closed interval [0, 1]. -/

/-- C8: `set_commission` fails with `InvalidCommission` exactly when the
value is below zero or above one (with the unsigned `Decimal`
representation "below zero" can never hold, so the test collapses to
atomics > 10^18), and for every value up to and including one — the
boundaries 0 and 1 in particular — it succeeds and unconditionally
overwrites whatever was stored before. -/
theorem C8_set_commission_validation (store : Option Decimal) (v : Decimal) :
    (set_commission store v = Except.error ContractError.InvalidCommission ↔
      v.atomics < 0 ∨ DF < v.atomics) ∧
    (v.atomics ≤ DF → set_commission store v = Except.ok (some v)) := by
  constructor
  · constructor
    · intro h
      by_contra hnot
      unfold set_commission at h
      rw [if_neg hnot] at h
      exact absurd h (by simp)
    · intro h
      unfold set_commission
      rw [if_pos h]
  · intro h
    unfold set_commission
    rw [if_neg (by omega)]

/-- C8 witness: the boundary values 1 (= 10^18 atomics) and 0 are accepted
and stored, while 1 + one atomic is rejected with `InvalidCommission`. -/
theorem C8_witness :
    set_commission none (Decimal.mk DF) = Except.ok (some (Decimal.mk DF)) ∧
    set_commission (some (Decimal.mk 3)) (Decimal.mk 0) =
      Except.ok (some (Decimal.mk 0)) ∧
    set_commission none (Decimal.mk (DF + 1)) =
      Except.error ContractError.InvalidCommission :=
  ⟨(C8_set_commission_validation none (Decimal.mk DF)).2 (by decide),
   (C8_set_commission_validation (some (Decimal.mk 3)) (Decimal.mk 0)).2 (by decide),
   (C8_set_commission_validation none (Decimal.mk (DF + 1))).1.mpr (by decide)⟩

/-! C9: preconditions of calculate_lock_in. -/

/-- C9: `calculate_lock_in` fails with `NoFunds` on every zero amount, no
matter what the commission slot holds, and on every non-zero amount with
the commission never set it fails with the configuration-missing error
(`Item::load` reporting `NotFound`, wrapped as a `Std` contract error). -/
theorem C9_lock_in_preconditions (a : Amount) :
    (a.is_empty = true →
      ∀ store, calculate_lock_in store a = LockInResult.err ContractError.NoFunds) ∧
    (a.is_empty = false →
      calculate_lock_in none a =
        LockInResult.err (ContractError.Std StdError.notFound)) := by
  constructor
  · intro h store
    unfold calculate_lock_in
    rw [h]
    simp
  · intro h
    unfold calculate_lock_in
    rw [h]
    simp [get_commission]

/-- C9 witness: a zero native amount fails with `NoFunds` even with a
commission configured, and a non-zero amount with no commission stored
fails with the `NotFound` configuration error. -/
theorem C9_witness :
    calculate_lock_in (some (Decimal.mk 0))
        (Amount.Native (Coin.mk (String.data "uusd") 0)) =
      LockInResult.err ContractError.NoFunds ∧
    calculate_lock_in none (Amount.Native (Coin.mk (String.data "uusd") 3)) =
      LockInResult.err (ContractError.Std StdError.notFound) :=
  ⟨(C9_lock_in_preconditions (Amount.Native (Coin.mk (String.data "uusd") 0))).1
      rfl (some (Decimal.mk 0)),
   (C9_lock_in_preconditions (Amount.Native (Coin.mk (String.data "uusd") 3))).2 rfl⟩

/-! C5: the denomination encoding round trip. -/

/-- Splitting off the "cw20:" marker: when a string starts with the marker,
re-prepending the marker to everything after its 5 characters gives the
string back. -/
theorem cw20Tag_append_drop {s : Str} (h : List.isPrefixOf cw20Tag s = true) :
    cw20Tag ++ List.drop 5 s = s := by
  have h2 : cw20Tag <+: s := by rwa [List.isPrefixOf_iff_prefix] at h
  obtain ⟨t, ht⟩ := h2
  subst ht
  have hd : List.drop 5 (cw20Tag ++ t) = t := by
    have h5 : cw20Tag.length = 5 := rfl
    rw [← h5, List.drop_left]
  rw [hd]

/-- C5 counterexample: the round trip decode∘encode is not the identity on
all amounts: a `Native` coin whose denomination string itself begins with
"cw20:" encodes to its raw denomination, which then decodes to a `Cw20`
amount instead of the original `Native` one. -/
theorem C5_counterexample :
    Amount.from_parts
        (Amount.denom (Amount.Native (Coin.mk (String.data "cw20:x") 1)))
        (Amount.amount (Amount.Native (Coin.mk (String.data "cw20:x") 1))) ≠
      Amount.Native (Coin.mk (String.data "cw20:x") 1) := by
  decide

/-- C5 (amended): decoding a "cw20:"-prefixed string yields a `Cw20` amount
(address = the rest of the string) and any other string yields `Native`;
encode∘decode is the identity on all strings (in particular on
"cw20:ADDR" and on "uusd"); decode∘encode is the identity on every `Cw20`
amount and on every `Native` amount whose denomination does not itself
start with "cw20:" (such degenerate `Native` amounts decode to `Cw20`
instead). -/
theorem C5_denom_roundtrip (s : Str) (n : Nat) (a : Amount) :
    (List.isPrefixOf cw20Tag s = true →
      Amount.from_parts s n = Amount.Cw20 (Cw20Coin.mk (List.drop 5 s) n)) ∧
    (List.isPrefixOf cw20Tag s = false →
      Amount.from_parts s n = Amount.Native (Coin.mk s n)) ∧
    (Amount.from_parts s n).denom = s ∧
    (∀ c, a = Amount.Cw20 c →
      Amount.from_parts a.denom a.amount = a) ∧
    (∀ c, a = Amount.Native c → List.isPrefixOf cw20Tag c.denom = false →
      Amount.from_parts a.denom a.amount = a) := by
  refine ⟨?_, ?_, ?_, ?_, ?_⟩
  · intro h
    unfold Amount.from_parts
    rw [if_pos h]
  · intro h
    unfold Amount.from_parts
    rw [if_neg (by simp [h])]
  · by_cases h : List.isPrefixOf cw20Tag s = true
    · unfold Amount.from_parts
      rw [if_pos h]
      exact cw20Tag_append_drop h
    · unfold Amount.from_parts
      rw [if_neg h]
      rfl
  · intro c hc
    subst hc
    unfold Amount.denom Amount.amount Amount.from_parts
    have hpre : List.isPrefixOf cw20Tag (cw20Tag ++ c.address) = true := by
      rw [List.isPrefixOf_iff_prefix]
      exact List.prefix_append _ _
    rw [if_pos hpre]
    have hd : List.drop 5 (cw20Tag ++ c.address) = c.address := by
      have h5 : cw20Tag.length = 5 := rfl
      rw [← h5, List.drop_left]
    rw [hd]
  · intro c hc hnot
    subst hc
    unfold Amount.denom Amount.amount Amount.from_parts
    rw [if_neg (by simp [hnot])]

/-- C5 witness: `from_parts "cw20:ad" 7` has denom "cw20:ad" back,
`from_parts "uusd" 7` has denom "uusd" back, and decode∘encode is the
identity on the `Cw20` amount with address "ad". -/
theorem C5_witness :
    (Amount.from_parts (String.data "cw20:ad") 7).denom = String.data "cw20:ad" ∧
    (Amount.from_parts (String.data "uusd") 7).denom = String.data "uusd" ∧
    Amount.from_parts (Amount.denom (Amount.Cw20 (Cw20Coin.mk (String.data "ad") 7)))
        (Amount.amount (Amount.Cw20 (Cw20Coin.mk (String.data "ad") 7))) =
      Amount.Cw20 (Cw20Coin.mk (String.data "ad") 7) :=
  ⟨(C5_denom_roundtrip (String.data "cw20:ad") 7
      (Amount.Native (Coin.mk [] 0))).2.2.1,
   (C5_denom_roundtrip (String.data "uusd") 7
      (Amount.Native (Coin.mk [] 0))).2.2.1,
   (C5_denom_roundtrip [] 0
      (Amount.Cw20 (Cw20Coin.mk (String.data "ad") 7))).2.2.2.1
      (Cw20Coin.mk (String.data "ad") 7) rfl⟩

/-! Arithmetic of the commission computation: evaluation of each step of
`calculate_lock_in` under a representable quantity and a commission of at
most one. -/

theorem mul_DF_div_DF (x : Nat) : x * DF / DF = x := by
  unfold DF
  omega

theorem is_empty_eq_false {a : Amount} (h : a.amount ≠ 0) : a.is_empty = false := by
  cases a <;> simp_all [Amount.is_empty, Amount.amount]

theorem with_amount_amount (a : Amount) (n : Nat) : (a.with_amount n).amount = n := by
  cases a <;> rfl

theorem with_amount_denom (a : Amount) (n : Nat) : (a.with_amount n).denom = a.denom := by
  cases a <;> rfl

theorem from_ratio_one {q : Nat} (h : q * DF < UINT128_BOUND) :
    Decimal.from_ratio q 1 = some (Decimal.mk (q * DF)) := by
  unfold Decimal.from_ratio Decimal.checked_from_ratio
  rw [if_neg (by omega), Nat.div_one, if_pos h]

theorem checked_mul_eval (c : Decimal) {q : Nat} (hc : c.atomics ≤ DF)
    (h : q * DF < UINT128_BOUND) :
    Decimal.checked_mul c (Decimal.mk (q * DF)) = some (Decimal.mk (c.atomics * q)) := by
  have hmul : c.atomics * (q * DF) = c.atomics * q * DF := by ring
  have hlt : c.atomics * q < UINT128_BOUND := by
    have h1 : c.atomics * q ≤ DF * q := Nat.mul_le_mul_right q hc
    have h2 : DF * q = q * DF := Nat.mul_comm _ _
    omega
  unfold Decimal.checked_mul
  dsimp only
  rw [hmul, mul_DF_div_DF, if_pos hlt]

theorem checked_ceil_eval {A q : Nat} (hA : A ≤ q * DF) (h : q * DF < UINT128_BOUND) :
    Decimal.checked_ceil (Decimal.mk A) =
      some (Decimal.mk ((A + (DF - 1)) / DF * DF)) := by
  unfold Decimal.checked_ceil Decimal.floor
  dsimp only
  by_cases hd : A / DF * DF = A
  · rw [if_pos (by rw [hd]), Option.some.injEq, Decimal.mk.injEq]
    unfold DF at *
    omega
  · have hne : ¬ Decimal.mk (A / DF * DF) = Decimal.mk A := by
      intro hh
      exact hd (congrArg Decimal.atomics hh)
    have hbound : A / DF * DF + DF < UINT128_BOUND := by
      unfold DF UINT128_BOUND at *
      omega
    rw [if_neg hne, if_pos hbound, Option.some.injEq, Decimal.mk.injEq]
    unfold DF at *
    omega

theorem mul_one_eval {m : Nat} (hm : m < UINT128_BOUND) :
    mul_uint128_decimal 1 (Decimal.mk (m * DF)) = some m := by
  unfold mul_uint128_decimal
  dsimp only
  rw [Nat.one_mul, mul_DF_div_DF, if_pos hm]

theorem checked_sub_eval {a b : Nat} (h : b ≤ a) : checked_sub a b = some (a - b) := by
  unfold checked_sub
  rw [if_pos h]

theorem ceil_le {A q : Nat} (hA : A ≤ q * DF) : (A + (DF - 1)) / DF ≤ q := by
  unfold DF at *
  omega

/-- Full evaluation of `calculate_lock_in` for a non-zero quantity whose
Decimal conversion does not overflow and a commission of at most one: the
withheld part is the ceiling of commission times quantity, computed as
`(atomics * q + (10^18 - 1)) / 10^18`, and the forwarded part is the
difference from the quantity. -/
theorem calculate_lock_in_eval (c : Decimal) (a : Amount)
    (hc : c.atomics ≤ DF) (h0 : a.amount ≠ 0)
    (hrep : a.amount * DF < UINT128_BOUND) :
    calculate_lock_in (some c) a =
      LockInResult.ok
        (a.with_amount ((c.atomics * a.amount + (DF - 1)) / DF))
        (a.with_amount (a.amount - (c.atomics * a.amount + (DF - 1)) / DF)) := by
  have hA : c.atomics * a.amount ≤ a.amount * DF := by
    calc c.atomics * a.amount ≤ DF * a.amount := Nat.mul_le_mul_right a.amount hc
      _ = a.amount * DF := Nat.mul_comm _ _
  have hceil_le : (c.atomics * a.amount + (DF - 1)) / DF ≤ a.amount := ceil_le hA
  have hq : a.amount < UINT128_BOUND := by
    unfold DF UINT128_BOUND at hrep
    unfold UINT128_BOUND
    omega
  have hm : (c.atomics * a.amount + (DF - 1)) / DF < UINT128_BOUND :=
    lt_of_le_of_lt hceil_le hq
  have e1 : Decimal.from_ratio a.amount 1 = some (Decimal.mk (a.amount * DF)) :=
    from_ratio_one hrep
  have e2 : Decimal.checked_mul c (Decimal.mk (a.amount * DF)) =
      some (Decimal.mk (c.atomics * a.amount)) := checked_mul_eval c hc hrep
  have e3 : Decimal.ceil (Decimal.mk (c.atomics * a.amount)) =
      some (Decimal.mk ((c.atomics * a.amount + (DF - 1)) / DF * DF)) := by
    unfold Decimal.ceil
    exact checked_ceil_eval hA hrep
  have e4 : mul_uint128_decimal 1
        (Decimal.mk ((c.atomics * a.amount + (DF - 1)) / DF * DF)) =
      some ((c.atomics * a.amount + (DF - 1)) / DF) := mul_one_eval hm
  have e5 : checked_sub a.amount ((c.atomics * a.amount + (DF - 1)) / DF) =
      some (a.amount - (c.atomics * a.amount + (DF - 1)) / DF) :=
    checked_sub_eval hceil_le
  unfold calculate_lock_in
  rw [is_empty_eq_false h0]
  rw [if_neg (by decide : ¬ (false = true))]
  simp only [get_commission]
  split
  next h1 =>
    rw [e1] at h1
    simp at h1
  next amnt_decimal h1 =>
    rw [e1, Option.some.injEq] at h1
    subst h1
    split
    next h2 =>
      rw [e2] at h2
      simp at h2
    next lock_in h2 =>
      rw [e2, Option.some.injEq] at h2
      subst h2
      split
      next h3 =>
        rw [e3] at h3
        simp at h3
      next lock_in_ceil h3 =>
        rw [e3, Option.some.injEq] at h3
        subst h3
        split
        next h4 =>
          rw [e4] at h4
          simp at h4
        next lock_in_uint h4 =>
          rw [e4, Option.some.injEq] at h4
          subst h4
          split
          next h5 =>
            rw [e5] at h5
            simp at h5
          next transfer_amnt_uint h5 =>
            rw [e5, Option.some.injEq] at h5
            subst h5
            rfl

/-! C1: conservation of the split. -/

/-- C1 counterexample: at the maximal 128-bit quantity (non-zero, with a
valid commission of exactly one) `calculate_lock_in` does not return a
pair at all: `Decimal::from_ratio(q, 1)` overflows 128 bits and panics,
aborting the execution, so the claim quantified over every non-zero
quantity fails. -/
theorem C1_counterexample :
    calculate_lock_in (some (Decimal.mk DF))
        (Amount.Native (Coin.mk (String.data "uusd")
          340282366920938463463374607431768211455)) =
      LockInResult.panicked := by
  decide

/-- C1 (amended): for every amount with non-zero quantity whose Decimal
conversion does not overflow (quantity * 10^18 < 2^128) and every
commission of at most one, `calculate_lock_in` returns a pair (withheld,
forwarded) with withheld + forwarded exactly the original quantity, and
both results have the variant and denomination/registry address of the
input. -/
theorem C1_lock_in_conservation (c : Decimal) (a : Amount)
    (hc : c.atomics ≤ DF) (h0 : a.amount ≠ 0)
    (hrep : a.amount * DF < UINT128_BOUND) :
    ∃ w f, calculate_lock_in (some c) a = LockInResult.ok w f ∧
      w.amount + f.amount = a.amount ∧
      w.denom = a.denom ∧ f.denom = a.denom ∧
      w = a.with_amount w.amount ∧ f = a.with_amount f.amount := by
  have hA : c.atomics * a.amount ≤ a.amount * DF := by
    calc c.atomics * a.amount ≤ DF * a.amount := Nat.mul_le_mul_right a.amount hc
      _ = a.amount * DF := Nat.mul_comm _ _
  have hceil_le : (c.atomics * a.amount + (DF - 1)) / DF ≤ a.amount := ceil_le hA
  refine ⟨_, _, calculate_lock_in_eval c a hc h0 hrep, ?_, ?_, ?_, ?_, ?_⟩
  · rw [with_amount_amount, with_amount_amount]
    omega
  · exact with_amount_denom a _
  · exact with_amount_denom a _
  · rw [with_amount_amount]
  · rw [with_amount_amount]

/-- C1 witness: with commission 10% and 100 native "uusd" units the call
returns a pair that conserves the quantity and the denomination. -/
theorem C1_witness :
    ∃ w f, calculate_lock_in (some (Decimal.mk 100000000000000000))
        (Amount.Native (Coin.mk (String.data "uusd") 100)) = LockInResult.ok w f ∧
      w.amount + f.amount = (Amount.Native (Coin.mk (String.data "uusd") 100)).amount ∧
      w.denom = (Amount.Native (Coin.mk (String.data "uusd") 100)).denom ∧
      f.denom = (Amount.Native (Coin.mk (String.data "uusd") 100)).denom ∧
      w = (Amount.Native (Coin.mk (String.data "uusd") 100)).with_amount w.amount ∧
      f = (Amount.Native (Coin.mk (String.data "uusd") 100)).with_amount f.amount :=
  C1_lock_in_conservation (Decimal.mk 100000000000000000)
    (Amount.Native (Coin.mk (String.data "uusd") 100))
    (by decide) (by decide) (by decide)

/-! C2: the withheld part is the ceiling of commission times quantity. -/

/-- C2 counterexample: the claim quantified over every non-zero quantity
fails: at quantity 2^127 with commission 10% the conversion
`Decimal::from_ratio(q, 1)` overflows 128 bits and panics, so no withheld
part is returned at all. -/
theorem C2_counterexample :
    calculate_lock_in (some (Decimal.mk 100000000000000000))
        (Amount.Native (Coin.mk (String.data "uusd")
          170141183460469231731687303715884105728)) =
      LockInResult.panicked := by
  decide

/-- C2 (amended): for every non-zero quantity q whose Decimal conversion
does not overflow (q * 10^18 < 2^128) and every commission c of at most
one, the withheld part is exactly the ceiling of c * q — computed as
(atomics * q + (10^18 - 1)) / 10^18 and characterized by
atomics * q ≤ withheld * 10^18 < atomics * q + 10^18 — and the forwarded
part is q minus that ceiling; in particular with commission 10% the split
of 100 is (10, 90) and of 101 is (11, 90). -/
theorem C2_withheld_is_ceiling (c : Decimal) (a : Amount)
    (hc : c.atomics ≤ DF) (h0 : a.amount ≠ 0)
    (hrep : a.amount * DF < UINT128_BOUND) :
    ∃ w f, calculate_lock_in (some c) a = LockInResult.ok w f ∧
      w.amount = (c.atomics * a.amount + (DF - 1)) / DF ∧
      f.amount = a.amount - (c.atomics * a.amount + (DF - 1)) / DF ∧
      c.atomics * a.amount ≤ w.amount * DF ∧
      w.amount * DF < c.atomics * a.amount + DF := by
  refine ⟨_, _, calculate_lock_in_eval c a hc h0 hrep,
    with_amount_amount _ _, with_amount_amount _ _, ?_, ?_⟩
  · rw [with_amount_amount]
    unfold DF
    omega
  · rw [with_amount_amount]
    unfold DF
    omega

/-- C2 witness: with commission 10% (atomics 10^17), quantity 101 gives
withheld = 11 = ceil(10.1) and forwarded = 90, and quantity 100 gives
withheld = 10 and forwarded = 90. -/
theorem C2_witness :
    (∃ w f, calculate_lock_in (some (Decimal.mk 100000000000000000))
        (Amount.Native (Coin.mk (String.data "uusd") 101)) = LockInResult.ok w f ∧
      w.amount = 11 ∧ f.amount = 90 ∧
      100000000000000000 * 101 ≤ w.amount * DF ∧
      w.amount * DF < 100000000000000000 * 101 + DF) ∧
    calculate_lock_in (some (Decimal.mk 100000000000000000))
        (Amount.Native (Coin.mk (String.data "uusd") 101)) =
      LockInResult.ok (Amount.Native (Coin.mk (String.data "uusd") 11))
        (Amount.Native (Coin.mk (String.data "uusd") 90)) ∧
    calculate_lock_in (some (Decimal.mk 100000000000000000))
        (Amount.Native (Coin.mk (String.data "uusd") 100)) =
      LockInResult.ok (Amount.Native (Coin.mk (String.data "uusd") 10))
        (Amount.Native (Coin.mk (String.data "uusd") 90)) :=
  ⟨C2_withheld_is_ceiling (Decimal.mk 100000000000000000)
      (Amount.Native (Coin.mk (String.data "uusd") 101))
      (by decide) (by decide) (by decide),
   by decide, by decide⟩

end CwIcs20
